import Mathlib

/-!
Shallow embedding of the MEL (Message Exercise List) versioning and merge
logic of `src/app/api/chat/route.backup.ts` and of the session CRUD logic of
`src/app/api/sessions/route.ts`.

Nondeterminism of the source (`crypto.randomUUID()` and
`new Date().toISOString()` / `Date.now()`) is modelled by a `Gen` value
holding a uuid supply and a clock supply, threaded through every function in
the exact order the source consumes fresh values. JavaScript's `x || y` on
strings treats both `undefined` and `""` as falsy, which is modelled
explicitly; `===` on optional fields is modelled by equality on `Option`
(`undefined === undefined` is `true`, matching `none = none`).
-/

namespace MelSpec

/-- Supply of fresh uuids (`uuid`, cursor `u`) and of wall-clock readings
(`clock`, cursor `t`), standing in for `crypto.randomUUID()` and
`new Date().toISOString()` in the source. -/
structure Gen where
  uuid : Nat → String
  clock : Nat → String
  u : Nat
  t : Nat

/-- One call to `crypto.randomUUID()`. -/
def Gen.freshUuid (g : Gen) : String × Gen :=
  (g.uuid g.u, { g with u := g.u + 1 })

/-- One call to `new Date().toISOString()` (or `Date.now()`, whose numeric
reading is interpolated into a string by the source). -/
def Gen.now (g : Gen) : String × Gen :=
  (g.clock g.t, { g with t := g.t + 1 })

/-- JS `s || freshUuid()` on an optional string: `undefined` and `""` are
falsy, and the fresh uuid is only minted (supply consumed) in that case. -/
def freshIfFalsy (s : Option String) (g : Gen) : String × Gen :=
  match s with
  | some v => if v = "" then g.freshUuid else (v, g)
  | none => g.freshUuid

/-- JS `string | number` primitive, compared with `===` (cross-type always
unequal). -/
inductive JsPrim where
  | str (s : String)
  | num (n : Int)
deriving DecidableEq, Repr

/-- The `Inject` record of `route.backup.ts` (all fields optional there). -/
structure Inject where
  id : Option String := none
  melId : Option String := none
  Number : Option JsPrim := none
  Serial : Option String := none
  Time : Option String := none
  From : Option String := none
  Faction : Option String := none
  To : Option String := none
  Team : Option String := none
  Method : Option String := none
  On : Option String := none
  Subject : Option String := none
  Message : Option String := none
  originalIndex : Option Nat := none
  lastModified : Option String := none
deriving DecidableEq, Repr

/-- The `Event` record of `route.backup.ts`: synthetic id, grouping-key value
(`Serial`, possibly absent) and inject count. -/
structure Event where
  id : String
  name : Option String
  injectCount : Nat
deriving DecidableEq, Repr

/-- The `MelData` record of `route.backup.ts`. -/
structure MelData where
  melId : String
  version : Nat
  timestamp : String
  injects : List Inject
  totalInjects : Nat
  events : List Event
deriving DecidableEq, Repr

/-- `eventMap.get(eventName).injectCount++`: bump the (first) event whose
name is `key`. The source's `Map` is keyed by name, so the match is unique. -/
def bumpEvent (key : Option String) : List Event → List Event
  | [] => []
  | e :: rest =>
    if e.name = key then { e with injectCount := e.injectCount + 1 } :: rest
    else e :: bumpEvent key rest

/-- The `injects.forEach` loop of `extractEventsFromInjects`, with the
insertion-ordered `Map` modelled as an accumulator list. A first-seen key is
inserted with count 0 and immediately incremented, i.e. inserted with 1. -/
def extractEventsAux (g : Gen) (acc : List Event) : List Inject → List Event × Gen
  | [] => (acc, g)
  | inject :: rest =>
    if acc.any (fun e => e.name == inject.Serial) then
      extractEventsAux g (bumpEvent inject.Serial acc) rest
    else
      let (eid, g') := g.freshUuid
      extractEventsAux g' (acc ++ [{ id := eid, name := inject.Serial, injectCount := 1 }]) rest

/-- `extractEventsFromInjects` of `route.backup.ts` (lines 97-113). -/
def extractEventsFromInjects (g : Gen) (injects : List Inject) : List Event × Gen :=
  extractEventsAux g [] injects

/-- The `injects.map((inject, index) => ...)` of `createMelVersion`:
`id: inject.id || randomUUID()`, `melId`, `originalIndex`, `lastModified`. -/
def assignIds (g : Gen) (docId ts : String) (index : Nat) : List Inject → List Inject × Gen
  | [] => ([], g)
  | inject :: rest =>
    let p := freshIfFalsy inject.id g
    let q := assignIds p.2 docId ts (index + 1) rest
    ({ inject with
       id := some p.1, melId := some docId,
       originalIndex := some index, lastModified := some ts } :: q.1, q.2)

/-- `createMelVersion` of `route.backup.ts` (lines 73-94). -/
def createMelVersion (g : Gen) (injects : List Inject) (melId : Option String) : MelData × Gen :=
  let p0 := freshIfFalsy melId g
  let currentMelId := p0.1
  let p1 := Gen.now p0.2
  let timestamp := p1.1
  let p2 := assignIds p1.2 currentMelId timestamp 0 injects
  let injectsWithIds := p2.1
  let p3 := extractEventsFromInjects p2.2 injectsWithIds
  ({ melId := currentMelId
     version := 1
     timestamp := timestamp
     injects := injectsWithIds
     totalInjects := injectsWithIds.length
     events := p3.1 }, p3.2)

/-- `{...inject, lastModified: timestamp}`. -/
def restampInject (ts : String) (i : Inject) : Inject :=
  { i with lastModified := some ts }

/-- `updateMelVersion` of `route.backup.ts` (lines 116-130): spread of
`currentMel` with version+1, fresh timestamp, re-stamped injects, recomputed
count and events. Note `melId` and every other field pass through. -/
def updateMelVersion (g : Gen) (currentMel : MelData) (updatedInjects : List Inject) : MelData × Gen :=
  let timestamp := (Gen.now g).1
  let p := extractEventsFromInjects (Gen.now g).2 updatedInjects
  ({ currentMel with
     version := currentMel.version + 1,
     timestamp := timestamp,
     injects := updatedInjects.map (restampInject timestamp),
     totalInjects := updatedInjects.length,
     events := p.1 }, p.2)

/-- `existing.id === updatedInject.id || existing.Number === updatedInject.Number`
(the `findIndex` predicate of the merge loop). -/
def injectMatches (ex u : Inject) : Bool :=
  ex.id == u.id || ex.Number == u.Number

/-- In-place replacement at the first matching index:
`{...updatedInject, id: existing.id, melId: currentMel.melId, lastModified: now}`. -/
def replaceFirstMatch (docId ts : String) (u : Inject) : List Inject → List Inject
  | [] => []
  | ex :: rest =>
    if injectMatches ex u then
      { u with id := ex.id, melId := some docId, lastModified := some ts } :: rest
    else ex :: replaceFirstMatch docId ts u rest

/-- One iteration of the `updatedInjects.forEach` loop of `mergeMelUpdates`:
replace the first match in place, else append with
`id: updatedInject.id || randomUUID()`. Each branch reads the clock once. -/
def mergeOne (g : Gen) (docId : String) (merged : List Inject) (u : Inject) : List Inject × Gen :=
  if merged.any (fun ex => injectMatches ex u) then
    (replaceFirstMatch docId (Gen.now g).1 u merged, (Gen.now g).2)
  else
    let p := freshIfFalsy u.id g
    (merged ++ [{ u with
                  id := some p.1, melId := some docId,
                  lastModified := some (Gen.now p.2).1 }], (Gen.now p.2).2)

/-- The whole `updatedInjects.forEach` loop, starting from a copy of the
existing inject list. -/
def mergeLoop (g : Gen) (docId : String) (merged : List Inject) : List Inject → List Inject × Gen
  | [] => (merged, g)
  | u :: us =>
    mergeLoop (mergeOne g docId merged u).2 docId (mergeOne g docId merged u).1 us

/-- `mergeMelUpdates` of `route.backup.ts` (lines 133-183). The source's
guard `!currentMel || !currentMel.injects` reduces to the null check for any
well-typed `MelData` (a JS array is always truthy), and the
`existingInjectsMap` it builds is never read by the merge path, so it is
omitted (it consumes no uuids and no clock readings). `isPartialUpdate` is
`updatedInjects.length < currentMel.injects.length`. -/
def mergeMelUpdates (g : Gen) (currentMel : Option MelData) (updatedInjects : List Inject) : MelData × Gen :=
  match currentMel with
  | none => createMelVersion g updatedInjects none
  | some mel =>
    if updatedInjects.length < mel.injects.length then
      updateMelVersion (mergeLoop g mel.melId mel.injects updatedInjects).2 mel
        (mergeLoop g mel.melId mel.injects updatedInjects).1
    else
      updateMelVersion g mel updatedInjects

/-- The merge-action dispatch inlined in `POST` (lines 403-419 of
`route.backup.ts`): `existingMel && existingMel.injects &&
existingMel.injects.length > 0` selects merge/replace by `action`, else a
brand-new document is built by `createMelVersion`. This is where the spec's
`merge(existingDocument | null, incomingInjects, mode)` contract lives, since
the `action`/mode only exists at this boundary. -/
def processMelAction (g : Gen) (existingMel : Option MelData) (extractedJson : List Inject) (action : String) : MelData × Gen :=
  match existingMel with
  | some mel =>
    if mel.injects.length > 0 then
      if action = "merge" then mergeMelUpdates g (some mel) extractedJson
      else updateMelVersion g mel extractedJson
    else
      createMelVersion g extractedJson none
  | none => createMelVersion g extractedJson none

/-- One entry of a `Session.messages` history (`{ role, content, id? }`). -/
structure ChatMessage where
  role : String
  content : String
  id : Option String := none
deriving DecidableEq, Repr

/-- One `melHistory` entry: `MelData & { createdAt, source }`. -/
structure MelHistoryEntry where
  mel : MelData
  createdAt : String
  source : String
deriving DecidableEq, Repr

/-- The `Session` record of `route.backup.ts`. -/
structure Session where
  messages : List ChatMessage
  lastActivity : String
  createdAt : String
  currentMel : Option MelData := none
  melHistory : Option (List MelHistoryEntry) := none
deriving DecidableEq, Repr

/-- An insertion-ordered JS `Map` with string keys, as an association list. -/
abbrev JsMap (α : Type) : Type := List (String × α)

/-- `Map.get`. -/
def jsMapGet {α : Type} (m : JsMap α) (k : String) : Option α :=
  match m.find? (fun p => p.1 == k) with
  | some p => some p.2
  | none => none

/-- `Map.set`: replace in place if the key exists, else append. -/
def jsMapSet {α : Type} : JsMap α → String → α → JsMap α
  | [], k, v => [(k, v)]
  | p :: rest, k, v => if p.1 = k then (k, v) :: rest else p :: jsMapSet rest k v

/-- `Map.delete`. -/
def jsMapDelete {α : Type} : JsMap α → String → JsMap α
  | [], _ => []
  | p :: rest, k => if p.1 = k then rest else p :: jsMapDelete rest k

/-- JS falsiness of an optional string (`undefined` and `""`). -/
def isFalsyStr : Option String → Bool
  | none => true
  | some s => s = ""

/-- Body of the `PUT` request of `route.backup.ts`
(`{ sessionId, melId, injects, action }`). -/
structure PutRequest where
  sessionId : Option String := none
  melId : Option String := none
  injects : Option (List Inject) := none
  action : Option String := none
deriving DecidableEq, Repr

/-- Response of the `PUT` handler: an error status+message, or the success
payload. -/
inductive PutOutcome where
  | failure (status : Nat) (error : String)
  | success (melData : MelData) (message : String)
deriving DecidableEq, Repr

/-- The `PUT` handler of `route.backup.ts` (lines 493-557), acting on the
chat module's session map. The JS guard `injects && Array.isArray(injects)`
accepts any array (an empty array is truthy). -/
def chatPUT (g : Gen) (store : JsMap Session) (req : PutRequest) :
    PutOutcome × JsMap Session × Gen :=
  if isFalsyStr req.sessionId then
    (.failure 400 "Session ID is required", store, g)
  else
    let sid := req.sessionId.getD ""
    match jsMapGet store sid with
    | none => (.failure 404 "Session not found", store, g)
    | some session =>
      match req.injects with
      | some injectList =>
        if req.action = some "updateInjects" then
          match session.currentMel with
          | none => (.failure 404 "MEL not found or ID mismatch", store, g)
          | some currentMel =>
            if req.melId = some currentMel.melId then
              let (updatedMel, g1) := updateMelVersion g currentMel injectList
              let (cAt, g2) := Gen.now g1
              let hist := session.melHistory.getD []
              let session' := { session with
                                currentMel := some updatedMel,
                                melHistory := some (hist ++ [⟨updatedMel, cAt, "user_edit"⟩]) }
              (.success updatedMel ("MEL updated to version " ++ toString updatedMel.version),
               jsMapSet store sid session', g2)
            else
              (.failure 404 "MEL not found or ID mismatch", store, g)
        else (.failure 400 "Invalid action or missing data", store, g)
      | none => (.failure 400 "Invalid action or missing data", store, g)

/-- Response of the chat `GET` handler. -/
inductive GetOutcome where
  | sessionList (ids : List String)
  | found (session : Session)
  | notFound (status : Nat) (error : String)
deriving DecidableEq, Repr

/-- The `GET` handler of `route.backup.ts` (lines 468-490): read-only on the
chat module's session map. -/
def chatGET (store : JsMap Session) (sessionId : Option String) : GetOutcome :=
  if isFalsyStr sessionId then
    .sessionList (store.map Prod.fst)
  else
    match jsMapGet store (sessionId.getD "") with
    | none => .notFound 404 "Session not found"
    | some s => .found s

/-- Body of the chat `POST` request
(`{ messages, apiKey, systemPrompt, sessionId, currentMelData }`). -/
structure ChatRequest where
  messages : List ChatMessage
  apiKey : Option String := none
  systemPrompt : Option String := none
  sessionId : Option String := none
  currentMelData : Option MelData := none
deriving DecidableEq, Repr

/-- The outcome of the outbound chat-completion call, an opaque external
boundary: either a non-ok upstream response, or the output of
`processResponsesApiOutput` (content, extracted inject array, action). -/
inductive UpstreamReply where
  | failure (status : Nat) (body : String)
  | success (content : String) (extractedJson : Option (List Inject)) (action : String)
deriving DecidableEq, Repr

/-- Response of the chat `POST` handler. -/
inductive ChatPostOutcome where
  | failure (status : Nat) (error : String)
  | success (content : String) (sessionId : String) (messageCount : Nat)
      (melData : Option MelData) (hasJson : Bool) (action : String)
deriving DecidableEq, Repr

/-- The chat `POST` handler of `route.backup.ts` (lines 251-465) as a state
transition on the chat module's session map, with the upstream call a
parameter. In-place mutations of the session object held by the map are
modelled by re-setting the key after each mutation, which is what the map
observes. `envKey` is `process.env.OPENAI_API_KEY`. -/
def chatPOST (g : Gen) (envKey : Option String) (store : JsMap Session)
    (req : ChatRequest) (reply : UpstreamReply) : ChatPostOutcome × JsMap Session × Gen :=
  let openaiApiKey :=
    match req.apiKey with
    | some k => if k = "" then envKey else some k
    | none => envKey
  if isFalsyStr openaiApiKey then
    (.failure 400 "API key is required", store, g)
  else
    let (currentSessionId, g1) :=
      match req.sessionId with
      | some s =>
        if s = "" then
          let (ms, g') := Gen.now g
          ("session_" ++ ms, g')
        else (s, g)
      | none =>
        let (ms, g') := Gen.now g
        ("session_" ++ ms, g')
    let (session0, store1, g2) :=
      match jsMapGet store currentSessionId with
      | some s => (s, store, g1)
      | none =>
        let (la, ga) := Gen.now g1
        let (ca, gb) := Gen.now ga
        let fresh : Session := { messages := [], lastActivity := la, createdAt := ca }
        (fresh, jsMapSet store currentSessionId fresh, gb)
    let session1 :=
      match req.currentMelData with
      | some m => { session0 with currentMel := some m }
      | none => session0
    let store2 :=
      match req.currentMelData with
      | some _ => jsMapSet store1 currentSessionId session1
      | none => store1
    let existingMel :=
      match req.currentMelData with
      | some m => some m
      | none => session1.currentMel
    match reply with
    | .failure status body =>
      (.failure status ("OpenAI Responses API Error: " ++ toString status ++ " - " ++ body),
       store2, g2)
    | .success content extractedJson action =>
      let finalContent :=
        if content = "" then "Exercise data has been processed using Responses API."
        else content
      let (melDataOpt, session2, store3, g3) :=
        match extractedJson with
        | some ejson =>
          let (melData, ga) := processMelAction g2 existingMel ejson action
          let (cAt, gb) := Gen.now ga
          let src := if action = "merge" then "partial_update_responses"
                     else "full_creation_responses"
          let hist := session1.melHistory.getD []
          let s2 := { session1 with
                      currentMel := some melData,
                      melHistory := some (hist ++ [MelHistoryEntry.mk melData cAt src]) }
          (some melData, s2, jsMapSet store2 currentSessionId s2, gb)
        | none => (none, session1, store2, g2)
      let updatedMessages :=
        req.messages ++ [({ role := "assistant", content := finalContent } : ChatMessage)]
      let (la2, g4) := Gen.now g3
      let session3 := { session2 with messages := updatedMessages, lastActivity := la2 }
      let store4 := jsMapSet store3 currentSessionId session3
      (.success finalContent currentSessionId updatedMessages.length melDataOpt
        extractedJson.isSome action, store4, g4)

/-- The `SessionData` record of `sessions/route.ts`. Its `exercise` field is
`unknown` in the source and is modelled as an opaque optional string. -/
structure ApiSessionData where
  id : String
  exercise : Option String := none
  messages : Option (List ChatMessage) := none
  lastActivity : String
  createdAt : String
deriving DecidableEq, Repr

/-- One element of the session listing of `sessions/route.ts` `GET`. -/
structure SessionSummary where
  id : String
  lastActivity : String
  messageCount : Nat
deriving DecidableEq, Repr

/-- The per-key mapping of the listing:
`lastActivity || new Date().toISOString()` and `messages?.length || 0`. -/
def sessionSummaries (g : Gen) : JsMap ApiSessionData → List SessionSummary × Gen
  | [] => ([], g)
  | (k, v) :: rest =>
    let (la, g') := if v.lastActivity = "" then Gen.now g else (v.lastActivity, g)
    let (rest', g'') := sessionSummaries g' rest
    ({ id := k, lastActivity := la, messageCount := (v.messages.getD []).length } :: rest', g'')

/-- Response of the sessions-route `GET` handler. -/
inductive ApiGetOutcome where
  | list (items : List SessionSummary)
  | found (session : ApiSessionData)
  | notFound (status : Nat) (error : String)
deriving DecidableEq, Repr

/-- `GET` of `sessions/route.ts` (lines 14-43): read-only on the sessions
module's own map. -/
def sessionsGET (g : Gen) (store : JsMap ApiSessionData) (sessionId : Option String) :
    ApiGetOutcome × Gen :=
  if isFalsyStr sessionId then
    let (items, g') := sessionSummaries g store
    (.list items, g')
  else
    match jsMapGet store (sessionId.getD "") with
    | none => (.notFound 404 "Session not found", g)
    | some s => (.found s, g)

/-- Body of the sessions-route `POST` request. -/
structure ApiPostRequest where
  sessionId : Option String := none
  exercise : Option String := none
  messages : Option (List ChatMessage) := none
deriving DecidableEq, Repr

/-- Response of the sessions-route `POST` handler. -/
inductive ApiPostOutcome where
  | failure (status : Nat) (error : String)
  | success (session : ApiSessionData)
deriving DecidableEq, Repr

/-- `POST` of `sessions/route.ts` (lines 45-72): save or update, with
`createdAt: sessions.get(sessionId)?.createdAt || new Date().toISOString()`. -/
def sessionsPOST (g : Gen) (store : JsMap ApiSessionData) (req : ApiPostRequest) :
    ApiPostOutcome × JsMap ApiSessionData × Gen :=
  if isFalsyStr req.sessionId then
    (.failure 400 "Session ID required", store, g)
  else
    let sid := req.sessionId.getD ""
    let (la, g1) := Gen.now g
    let (ca, g2) :=
      match jsMapGet store sid with
      | some old => if old.createdAt = "" then Gen.now g1 else (old.createdAt, g1)
      | none => Gen.now g1
    let s : ApiSessionData :=
      { id := sid, exercise := req.exercise, messages := req.messages,
        lastActivity := la, createdAt := ca }
    (.success s, jsMapSet store sid s, g2)

/-- Response of the sessions-route `DELETE` handler. -/
inductive ApiDeleteOutcome where
  | failure (status : Nat) (error : String)
  | success
deriving DecidableEq, Repr

/-- `DELETE` of `sessions/route.ts` (lines 74-92). -/
def sessionsDELETE (store : JsMap ApiSessionData) (sessionId : Option String) :
    ApiDeleteOutcome × JsMap ApiSessionData :=
  if isFalsyStr sessionId then
    (.failure 400 "Session ID required", store)
  else
    (.success, jsMapDelete store (sessionId.getD ""))

/-- The whole module-level mutable state of the two route modules: each
declares its own `const sessions = new Map(...)`, so the state is a pair of
independent maps. -/
structure GlobalState where
  chatSessions : JsMap Session
  apiSessions : JsMap ApiSessionData
deriving DecidableEq, Repr

/-- Chat `POST` on the global state (touches only `chatSessions`). -/
def chatPOSTg (g : Gen) (envKey : Option String) (st : GlobalState)
    (req : ChatRequest) (reply : UpstreamReply) : ChatPostOutcome × GlobalState × Gen :=
  ((chatPOST g envKey st.chatSessions req reply).1,
   { st with chatSessions := (chatPOST g envKey st.chatSessions req reply).2.1 },
   (chatPOST g envKey st.chatSessions req reply).2.2)

/-- Chat `PUT` on the global state (touches only `chatSessions`). -/
def chatPUTg (g : Gen) (st : GlobalState) (req : PutRequest) :
    PutOutcome × GlobalState × Gen :=
  ((chatPUT g st.chatSessions req).1,
   { st with chatSessions := (chatPUT g st.chatSessions req).2.1 },
   (chatPUT g st.chatSessions req).2.2)

/-- Chat `GET` on the global state (reads only `chatSessions`). -/
def chatGETg (st : GlobalState) (sessionId : Option String) : GetOutcome × GlobalState :=
  (chatGET st.chatSessions sessionId, st)

/-- Sessions-route `GET` on the global state (reads only `apiSessions`). -/
def sessionsGETg (g : Gen) (st : GlobalState) (sessionId : Option String) :
    ApiGetOutcome × GlobalState × Gen :=
  ((sessionsGET g st.apiSessions sessionId).1, st,
   (sessionsGET g st.apiSessions sessionId).2)

/-- Sessions-route `POST` on the global state (touches only `apiSessions`). -/
def sessionsPOSTg (g : Gen) (st : GlobalState) (req : ApiPostRequest) :
    ApiPostOutcome × GlobalState × Gen :=
  ((sessionsPOST g st.apiSessions req).1,
   { st with apiSessions := (sessionsPOST g st.apiSessions req).2.1 },
   (sessionsPOST g st.apiSessions req).2.2)

/-- Sessions-route `DELETE` on the global state (touches only `apiSessions`). -/
def sessionsDELETEg (st : GlobalState) (sessionId : Option String) :
    ApiDeleteOutcome × GlobalState :=
  ((sessionsDELETE st.apiSessions sessionId).1,
   { st with apiSessions := (sessionsDELETE st.apiSessions sessionId).2 })

/-- Spec-side: the distinct values of a key list in first-seen order, with
values already in `seen` excluded. -/
def firstSeenFrom {α : Type} [DecidableEq α] (seen : List α) : List α → List α
  | [] => []
  | k :: ks => if k ∈ seen then firstSeenFrom seen ks else k :: firstSeenFrom (seen ++ [k]) ks

/-- Spec-side: the distinct values of a key list in first-seen order. -/
def firstSeenKeys {α : Type} [DecidableEq α] (ks : List α) : List α :=
  firstSeenFrom [] ks

/-- A fixed uuid/clock supply for concrete evaluations: every reading is
distinct from every other. -/
def gen0 : Gen :=
  { uuid := fun n => "uuid-" ++ Nat.repr n, clock := fun n => "time-" ++ Nat.repr n,
    u := 0, t := 0 }

/-- A concrete five-inject sample: inject `k` of an existing document. -/
def cInj (k : Int) (idv msg : String) : Inject :=
  { id := some idv, melId := some "doc-A", Number := some (.num k), Serial := some "S",
    Message := some msg, lastModified := some "time-old" }

/-- A concrete existing document with injects numbered 1..5. -/
def cDoc : MelData :=
  { melId := "doc-A", version := 3, timestamp := "time-old",
    injects := [cInj 1 "id-1" "m1", cInj 2 "id-2" "m2", cInj 3 "id-3" "m3",
                cInj 4 "id-4" "m4", cInj 5 "id-5" "m5"],
    totalInjects := 5, events := [{ id := "ev-0", name := some "S", injectCount := 5 }] }

/-- A concrete incoming inject addressed by sequence number 3. -/
def cUpd : Inject := { Number := some (.num 3), Message := some "updated body" }

/-- A concrete document with identifier `A` and no injects. -/
def c4Doc : MelData :=
  { melId := "A", version := 1, timestamp := "t", injects := [],
    totalInjects := 0, events := [] }

/-- A concrete inject whose owning-document identifier points at `B`. -/
def c4Inj : Inject := { melId := some "B", Message := some "x" }

/-- A concrete inject carrying only a grouping key and a body. -/
def c8Inj : Inject := { Serial := some "S", Message := some "m" }

/-- The concrete result of merging `cUpd` into `cDoc` at the matched
position 3: incoming fields with the original identifier, the document's
identifier, and the final re-stamp. -/
def cMerged3 : Inject :=
  { id := some "id-3", melId := some "doc-A", Number := some (.num 3),
    Message := some "updated body", lastModified := some "time-1" }

/-- A concrete chat session holding `cDoc` as its current document. -/
def wSession : Session :=
  { messages := [{ role := "user", content := "hi" }], lastActivity := "t0",
    createdAt := "t0", currentMel := some cDoc }

/-- A concrete chat-module session store. -/
def wStore : JsMap Session := [("s1", wSession)]

/-- A concrete `PUT` request whose document identifier does not match. -/
def wReq : PutRequest :=
  { sessionId := some "s1", melId := some "doc-B", injects := some [],
    action := some "updateInjects" }

-- ### Lemmas

theorem mem_firstSeenFrom {α : Type} [DecidableEq α] (ks : List α) :
    ∀ (seen : List α) (x : α), x ∈ firstSeenFrom seen ks → x ∉ seen ∧ x ∈ ks := by
  induction ks with
  | nil => intro seen x hx; simp [firstSeenFrom] at hx
  | cons k ks ih =>
    intro seen x hx
    by_cases hk : k ∈ seen
    · rw [firstSeenFrom, if_pos hk] at hx
      obtain ⟨h1, h2⟩ := ih seen x hx
      exact ⟨h1, List.mem_cons_of_mem _ h2⟩
    · rw [firstSeenFrom, if_neg hk] at hx
      rcases List.mem_cons.1 hx with rfl | hx'
      · exact ⟨hk, List.mem_cons_self _ _⟩
      · obtain ⟨h1, h2⟩ := ih _ x hx'
        constructor
        · intro hs; exact h1 (List.mem_append_left _ hs)
        · exact List.mem_cons_of_mem _ h2

theorem firstSeenFrom_nodup {α : Type} [DecidableEq α] (ks : List α) :
    ∀ seen : List α, (firstSeenFrom seen ks).Nodup := by
  induction ks with
  | nil => intro seen; simp [firstSeenFrom]
  | cons k ks ih =>
    intro seen
    by_cases hk : k ∈ seen
    · rw [firstSeenFrom, if_pos hk]; exact ih seen
    · rw [firstSeenFrom, if_neg hk]
      refine List.nodup_cons.2 ⟨?_, ih _⟩
      intro hmem
      exact (mem_firstSeenFrom ks _ k hmem).1 (List.mem_append_right _ (List.mem_singleton.2 rfl))

theorem firstSeenFrom_toFinset {α : Type} [DecidableEq α] (ks : List α) :
    ∀ seen : List α, (firstSeenFrom seen ks).toFinset = ks.toFinset \ seen.toFinset := by
  induction ks with
  | nil => intro seen; simp [firstSeenFrom]
  | cons k ks ih =>
    intro seen
    by_cases hk : k ∈ seen
    · rw [firstSeenFrom, if_pos hk, ih]
      ext a
      by_cases ha : a = k <;> simp [ha, hk]
    · rw [firstSeenFrom, if_neg hk]
      simp only [List.toFinset_cons, ih]
      ext a
      by_cases ha : a = k <;> simp [ha, hk]

theorem firstSeenKeys_length {α : Type} [DecidableEq α] (ks : List α) :
    (firstSeenKeys ks).length = ks.toFinset.card := by
  rw [firstSeenKeys, ← List.toFinset_card_of_nodup (firstSeenFrom_nodup ks []),
    firstSeenFrom_toFinset]
  simp

theorem bumpEvent_name_map (k : Option String) (acc : List Event) :
    (bumpEvent k acc).map Event.name = acc.map Event.name := by
  induction acc with
  | nil => rfl
  | cons e acc ih =>
    by_cases h : e.name = k
    · rw [bumpEvent, if_pos h]; simp
    · rw [bumpEvent, if_neg h]; simp [ih]

theorem any_name_eq_mem (acc : List Event) (k : Option String) :
    (acc.any fun e => e.name == k) = true ↔ k ∈ acc.map Event.name := by
  simp only [List.any_eq_true, List.mem_map, beq_iff_eq]

theorem extractEventsAux_names (l : List Inject) :
    ∀ (g : Gen) (acc : List Event),
      (extractEventsAux g acc l).1.map Event.name
        = acc.map Event.name ++ firstSeenFrom (acc.map Event.name) (l.map Inject.Serial) := by
  induction l with
  | nil => intro g acc; simp [extractEventsAux, firstSeenFrom]
  | cons i l ih =>
    intro g acc
    by_cases h : (acc.any fun e => e.name == i.Serial) = true
    · have hk : i.Serial ∈ acc.map Event.name := (any_name_eq_mem acc _).1 h
      rw [extractEventsAux, if_pos h, ih, bumpEvent_name_map, List.map_cons, firstSeenFrom,
        if_pos hk]
    · have hk : i.Serial ∉ acc.map Event.name := fun hm => h ((any_name_eq_mem acc _).2 hm)
      rw [extractEventsAux, if_neg h]
      show (extractEventsAux _ _ l).1.map Event.name = _
      rw [ih, List.map_cons, firstSeenFrom, if_neg hk]
      simp [Gen.freshUuid]

theorem bumpEvent_pairs (k : Option String) (m : Option String → Nat) :
    ∀ acc : List Event, (acc.map Event.name).Nodup → k ∈ acc.map Event.name →
      (bumpEvent k acc).map (fun e => (e.name, e.injectCount + m e.name))
        = acc.map (fun e => (e.name, e.injectCount + (m e.name + if e.name = k then 1 else 0))) := by
  intro acc
  induction acc with
  | nil => intro _ hk; simp at hk
  | cons e acc ih =>
    intro hnd hk
    rw [List.map_cons] at hnd
    have hnd1 := (List.nodup_cons.1 hnd).1
    have hnd2 := (List.nodup_cons.1 hnd).2
    by_cases h : e.name = k
    · rw [bumpEvent, if_pos h]
      simp only [List.map_cons]
      congr 1
      · rw [if_pos h]
        show (e.name, e.injectCount + 1 + m e.name) = (e.name, e.injectCount + (m e.name + 1))
        congr 1
        omega
      · apply List.map_congr_left
        intro a ha
        have hak : a.name ≠ k := by
          intro hak
          exact hnd1 (h ▸ hak ▸ List.mem_map_of_mem Event.name ha)
        simp [hak]
    · rw [bumpEvent, if_neg h]
      simp only [List.map_cons]
      have hk' : k ∈ acc.map Event.name := by
        rcases List.mem_cons.1 hk with hek | hm
        · exact absurd hek.symm h
        · exact hm
      rw [ih hnd2 hk']
      congr 1
      simp [h]

theorem extractEventsAux_pairs (l : List Inject) :
    ∀ (g : Gen) (acc : List Event), (acc.map Event.name).Nodup →
      (extractEventsAux g acc l).1.map (fun e => (e.name, e.injectCount))
        = acc.map (fun e => (e.name, e.injectCount + (l.map Inject.Serial).count e.name))
          ++ (firstSeenFrom (acc.map Event.name) (l.map Inject.Serial)).map
               (fun k => (k, (l.map Inject.Serial).count k)) := by
  induction l with
  | nil =>
    intro g acc _
    simp [extractEventsAux, firstSeenFrom]
  | cons i l ih =>
    intro g acc hnd
    by_cases h : (acc.any fun e => e.name == i.Serial) = true
    · have hk : i.Serial ∈ acc.map Event.name := (any_name_eq_mem acc _).1 h
      rw [extractEventsAux, if_pos h]
      have hnd' : ((bumpEvent i.Serial acc).map Event.name).Nodup := by
        rw [bumpEvent_name_map]; exact hnd
      rw [ih _ _ hnd', bumpEvent_name_map, List.map_cons, firstSeenFrom, if_pos hk]
      rw [bumpEvent_pairs i.Serial (fun n => (l.map Inject.Serial).count n) acc hnd hk]
      congr 1
      · apply List.map_congr_left
        intro e _
        by_cases he : e.name = i.Serial
        · simp [List.count_cons, he]
        · have he' : ¬ (i.Serial = e.name) := fun hh => he hh.symm
          simp [List.count_cons, he, he']
      · apply List.map_congr_left
        intro x hx
        have hxk : x ≠ i.Serial := fun hh => (mem_firstSeenFrom _ _ _ hx).1 (hh ▸ hk)
        have hxk' : ¬ (i.Serial = x) := fun hh => hxk hh.symm
        simp [List.count_cons, hxk, hxk']
    · have hk : i.Serial ∉ acc.map Event.name := fun hm => h ((any_name_eq_mem acc _).2 hm)
      rw [extractEventsAux, if_neg h]
      show (extractEventsAux _ _ l).1.map _ = _
      have hnd' : (((acc ++ [({ id := g.uuid g.u, name := i.Serial, injectCount := 1 } : Event)]).map
          Event.name)).Nodup := by
        rw [List.map_append]
        refine List.Nodup.append hnd (by simp) ?_
        intro a ha hb
        simp only [List.map_cons, List.map_nil, List.mem_singleton] at hb
        exact hk (hb ▸ ha)
      rw [ih _ _ hnd']
      simp only [List.map_append, List.map_cons, List.map_nil]
      rw [firstSeenFrom, if_neg hk]
      simp only [List.append_assoc, List.singleton_append, List.map_cons]
      congr 1
      · apply List.map_congr_left
        intro e he
        have hek : e.name ≠ i.Serial := by
          intro hh
          exact hk (hh ▸ List.mem_map_of_mem Event.name he)
        have hek' : ¬ (i.Serial = e.name) := fun hh => hek hh.symm
        simp [List.count_cons, hek, hek']
      · congr 1
        · simp only [List.count_cons, beq_iff_eq, if_pos rfl]
          show (i.Serial, 1 + (l.map Inject.Serial).count i.Serial)
            = (i.Serial, (l.map Inject.Serial).count i.Serial + 1)
          congr 1
          omega
        · apply List.map_congr_left
          intro x hx
          have hxk : x ≠ i.Serial := by
            intro hh
            have := (mem_firstSeenFrom _ _ _ hx).1
            exact this (List.mem_append_right _ (List.mem_singleton.2 hh))
          have hxk' : ¬ (i.Serial = x) := fun hh => hxk hh.symm
          simp [List.count_cons, hxk, hxk']

theorem extractEvents_names (g : Gen) (l : List Inject) :
    (extractEventsFromInjects g l).1.map Event.name = firstSeenKeys (l.map Inject.Serial) := by
  rw [extractEventsFromInjects, extractEventsAux_names l g []]
  simp [firstSeenKeys]

theorem extractEvents_pairs (g : Gen) (l : List Inject) :
    (extractEventsFromInjects g l).1.map (fun e => (e.name, e.injectCount))
      = (firstSeenKeys (l.map Inject.Serial)).map
          (fun k => (k, (l.map Inject.Serial).count k)) := by
  rw [extractEventsFromInjects, extractEventsAux_pairs l g [] (by simp)]
  simp [firstSeenKeys]

theorem extractEvents_counts (g : Gen) (l : List Inject) :
    (extractEventsFromInjects g l).1.map Event.injectCount
      = (firstSeenKeys (l.map Inject.Serial)).map (fun k => (l.map Inject.Serial).count k) := by
  have h := congrArg (List.map Prod.snd) (extractEvents_pairs g l)
  simpa [List.map_map, Function.comp] using h

theorem extractEvents_length (g : Gen) (l : List Inject) :
    (extractEventsFromInjects g l).1.length = (l.map Inject.Serial).toFinset.card := by
  have h := congrArg List.length (extractEvents_names g l)
  simpa [firstSeenKeys_length] using h

theorem freshIfFalsy_of_ne (v : String) (hv : v ≠ "") (g : Gen) :
    freshIfFalsy (some v) g = (v, g) := by
  simp [freshIfFalsy, hv]

theorem assignIds_length (l : List Inject) :
    ∀ (g : Gen) (docId ts : String) (index : Nat),
      (assignIds g docId ts index l).1.length = l.length := by
  induction l with
  | nil => intro g d t0 idx; rfl
  | cons i l ih => intro g d t0 idx; simp [assignIds, ih]

theorem assignIds_serials (l : List Inject) :
    ∀ (g : Gen) (docId ts : String) (index : Nat),
      (assignIds g docId ts index l).1.map Inject.Serial = l.map Inject.Serial := by
  induction l with
  | nil => intro g d t0 idx; rfl
  | cons i l ih => intro g d t0 idx; simp [assignIds, ih]

theorem assignIds_melId (l : List Inject) :
    ∀ (g : Gen) (docId ts : String) (index : Nat) (x : Inject),
      x ∈ (assignIds g docId ts index l).1 → x.melId = some docId := by
  induction l with
  | nil => intro g d t0 idx x hx; simp [assignIds] at hx
  | cons i l ih =>
    intro g d t0 idx x hx
    simp only [assignIds, List.mem_cons] at hx
    rcases hx with rfl | hx'
    · rfl
    · exact ih _ d t0 _ x hx'

theorem assignIds_id (l : List Inject) :
    ∀ (g : Gen) (docId ts : String) (index k : Nat) (j : Inject) (v : String),
      l[k]? = some j → j.id = some v → v ≠ "" →
      ((assignIds g docId ts index l).1[k]?).map Inject.id = some (some v) := by
  induction l with
  | nil => intro g d t0 idx k j v hk; simp at hk
  | cons i l ih =>
    intro g d t0 idx k j v hk hid hv
    cases k with
    | zero =>
      simp only [List.getElem?_cons_zero, Option.some.injEq] at hk
      subst hk
      simp [assignIds, hid, freshIfFalsy, hv]
    | succ k =>
      simp only [List.getElem?_cons_succ] at hk
      have := ih ((freshIfFalsy i.id g).2) d t0 (idx + 1) k j v hk hid hv
      simpa [assignIds] using this

theorem replaceFirstMatch_length (docId ts : String) (u : Inject) (l : List Inject) :
    (replaceFirstMatch docId ts u l).length = l.length := by
  induction l with
  | nil => rfl
  | cons ex l ih =>
    by_cases h : injectMatches ex u = true
    · simp [replaceFirstMatch, h]
    · simp [replaceFirstMatch, h, ih]

theorem replaceFirstMatch_id (docId ts : String) (u : Inject) (l : List Inject) :
    ∀ k : Nat, ((replaceFirstMatch docId ts u l)[k]?).map Inject.id = (l[k]?).map Inject.id := by
  induction l with
  | nil => intro k; rfl
  | cons ex l ih =>
    intro k
    by_cases h : injectMatches ex u = true
    · cases k with
      | zero => simp [replaceFirstMatch, h]
      | succ k => simp [replaceFirstMatch, h]
    · cases k with
      | zero => simp [replaceFirstMatch, h]
      | succ k => simp [replaceFirstMatch, h, ih]

theorem mergeOne_length (g : Gen) (docId : String) (merged : List Inject) (u : Inject) :
    merged.length ≤ (mergeOne g docId merged u).1.length := by
  by_cases h : (merged.any fun ex => injectMatches ex u) = true
  · simp [mergeOne, h, replaceFirstMatch_length]
  · simp [mergeOne, h]

theorem mergeOne_id (g : Gen) (docId : String) (merged : List Inject) (u : Inject) (k : Nat)
    (hk : k < merged.length) :
    ((mergeOne g docId merged u).1[k]?).map Inject.id = (merged[k]?).map Inject.id := by
  by_cases h : (merged.any fun ex => injectMatches ex u) = true
  · simp [mergeOne, h, replaceFirstMatch_id]
  · simp [mergeOne, h, List.getElem?_append_left hk]

theorem mergeLoop_length (us : List Inject) :
    ∀ (g : Gen) (docId : String) (merged : List Inject),
      merged.length ≤ (mergeLoop g docId merged us).1.length := by
  induction us with
  | nil => intro g d merged; exact le_refl _
  | cons u us ih =>
    intro g d merged
    calc merged.length ≤ (mergeOne g d merged u).1.length := mergeOne_length g d merged u
      _ ≤ _ := ih (mergeOne g d merged u).2 d (mergeOne g d merged u).1

theorem mergeLoop_id (us : List Inject) :
    ∀ (g : Gen) (docId : String) (merged : List Inject) (k : Nat), k < merged.length →
      ((mergeLoop g docId merged us).1[k]?).map Inject.id = (merged[k]?).map Inject.id := by
  induction us with
  | nil => intro g d merged k hk; rfl
  | cons u us ih =>
    intro g d merged k hk
    have h1 : k < (mergeOne g d merged u).1.length :=
      lt_of_lt_of_le hk (mergeOne_length g d merged u)
    calc ((mergeLoop g d merged (u :: us)).1[k]?).map Inject.id
        = ((mergeOne g d merged u).1[k]?).map Inject.id :=
          ih (mergeOne g d merged u).2 d (mergeOne g d merged u).1 k h1
      _ = (merged[k]?).map Inject.id := mergeOne_id g d merged u k hk

theorem restamp_id_comp (ts : String) : Inject.id ∘ restampInject ts = Inject.id :=
  funext fun _ => rfl

theorem restamp_melId_comp (ts : String) : Inject.melId ∘ restampInject ts = Inject.melId :=
  funext fun _ => rfl

theorem mergeMelUpdates_replace (g : Gen) (mel : MelData) (u : List Inject)
    (h : ¬ (u.length < mel.injects.length)) :
    mergeMelUpdates g (some mel) u = updateMelVersion g mel u := by
  show (if u.length < mel.injects.length then _ else _) = _
  rw [if_neg h]

theorem mergeMelUpdates_keepsIds (g : Gen) (mel : MelData) (u : List Inject)
    (h : u.length < mel.injects.length) (k : Nat) (hk : k < mel.injects.length) :
    ((mergeMelUpdates g (some mel) u).1.injects[k]?).map Inject.id
      = (mel.injects[k]?).map Inject.id := by
  show ((if u.length < mel.injects.length then _ else _ : MelData × Gen).1.injects[k]?).map
    Inject.id = _
  rw [if_pos h]
  show (((mergeLoop g mel.melId mel.injects u).1.map
    (restampInject ((Gen.now (mergeLoop g mel.melId mel.injects u).2).1)))[k]?).map Inject.id = _
  rw [List.getElem?_map, Option.map_map, restamp_id_comp]
  exact mergeLoop_id u g mel.melId mel.injects k hk

theorem mergeMelUpdates_shortBatch (g : Gen) (mel : MelData) (u : List Inject)
    (h : u.length < mel.injects.length) :
    mergeMelUpdates g (some mel) u
      = updateMelVersion (mergeLoop g mel.melId mel.injects u).2 mel
          (mergeLoop g mel.melId mel.injects u).1 := by
  show (if u.length < mel.injects.length then _ else _) = _
  rw [if_pos h]

theorem replaceFirstMatch_mem (docId ts : String) (u : Inject) (l : List Inject) :
    ∀ x ∈ replaceFirstMatch docId ts u l, x ∈ l ∨ x.melId = some docId := by
  induction l with
  | nil => intro x hx; simp [replaceFirstMatch] at hx
  | cons ex l ih =>
    intro x hx
    by_cases h : injectMatches ex u = true
    · rw [replaceFirstMatch, if_pos h] at hx
      rcases List.mem_cons.1 hx with rfl | hx'
      · right; rfl
      · left; exact List.mem_cons_of_mem _ hx'
    · rw [replaceFirstMatch, if_neg h] at hx
      rcases List.mem_cons.1 hx with rfl | hx'
      · left; exact List.mem_cons_self _ _
      · rcases ih x hx' with h1 | h2
        · left; exact List.mem_cons_of_mem _ h1
        · right; exact h2

theorem mergeOne_mem (g : Gen) (docId : String) (merged : List Inject) (u : Inject) :
    ∀ x ∈ (mergeOne g docId merged u).1, x ∈ merged ∨ x.melId = some docId := by
  intro x hx
  by_cases h : (merged.any fun ex => injectMatches ex u) = true
  · rw [mergeOne, if_pos h] at hx
    exact replaceFirstMatch_mem _ _ _ _ x hx
  · rw [mergeOne, if_neg h] at hx
    rcases List.mem_append.1 hx with h1 | h2
    · left; exact h1
    · right
      rw [List.mem_singleton.1 h2]

theorem mergeLoop_mem (us : List Inject) :
    ∀ (g : Gen) (docId : String) (merged : List Inject),
      ∀ x ∈ (mergeLoop g docId merged us).1, x ∈ merged ∨ x.melId = some docId := by
  induction us with
  | nil => intro g d merged x hx; left; exact hx
  | cons u us ih =>
    intro g d merged x hx
    rcases ih (mergeOne g d merged u).2 d (mergeOne g d merged u).1 x hx with h1 | h2
    · exact mergeOne_mem g d merged u x h1
    · right; exact h2

theorem createMelVersion_events_length (g : Gen) (l : List Inject) (mid : Option String) :
    (createMelVersion g l mid).1.events.length = (l.map Inject.Serial).toFinset.card := by
  show (extractEventsFromInjects _ _).1.length = _
  rw [extractEvents_length, assignIds_serials]

-- ### Claim theorems

/-- Claim C2 (confirmed): whenever the existing document is null or has an
empty inject list, the merge dispatch hands the call entirely to the Document
Builder regardless of the requested action, and the result is the brand-new
version-1 document built from the incoming injects; the merge engine itself
does the same on a null document. -/
theorem claim_C2 (g : Gen) (u : List Inject) (action : String) (mid ts : String)
    (v n : Nat) (evs : List Event) :
    processMelAction g none u action = createMelVersion g u none ∧
    processMelAction g (some { melId := mid, version := v, timestamp := ts,
                               injects := [], totalInjects := n, events := evs })
        u action = createMelVersion g u none ∧
    mergeMelUpdates g none u = createMelVersion g u none ∧
    (createMelVersion g u none).1.version = 1 :=
  ⟨rfl, rfl, rfl, rfl⟩

/-- Claim C5 (confirmed): the Document Builder always returns version 1, as
many injects as it was given, and one event per distinct `Serial` value of
the input. -/
theorem claim_C5 (g : Gen) (L : List Inject) (mid : Option String) :
    (createMelVersion g L mid).1.version = 1 ∧
    (createMelVersion g L mid).1.injects.length = L.length ∧
    (createMelVersion g L mid).1.events.length = (L.map Inject.Serial).toFinset.card :=
  ⟨rfl, assignIds_length L _ _ _ _, createMelVersion_events_length g L mid⟩

/-- Claim C6 (confirmed): replacing an existing document's injects yields
exactly the incoming list re-stamped with a fresh last-modified time, the
incoming count, version incremented by exactly one, and the existing document
identifier (and every other metadata field of the spread) preserved. -/
theorem claim_C6 (g : Gen) (mel : MelData) (u : List Inject) :
    (updateMelVersion g mel u).1.melId = mel.melId ∧
    (updateMelVersion g mel u).1.version = mel.version + 1 ∧
    (updateMelVersion g mel u).1.timestamp = g.clock g.t ∧
    (updateMelVersion g mel u).1.injects = u.map (restampInject (g.clock g.t)) ∧
    (updateMelVersion g mel u).1.totalInjects = u.length :=
  ⟨rfl, rfl, rfl, rfl, rfl⟩

/-- Claim C7 (confirmed): the Event Aggregator produces one event per
distinct grouping-key value in first-seen order, with each count equal to the
number of injects sharing that key, and maps the empty input to the empty
output. -/
theorem claim_C7 (g : Gen) (L : List Inject) :
    (extractEventsFromInjects g L).1.map (fun e => (e.name, e.injectCount))
      = (firstSeenKeys (L.map Inject.Serial)).map
          (fun k => (k, (L.map Inject.Serial).count k)) ∧
    ((extractEventsFromInjects g L).1.map Event.name).Nodup ∧
    extractEventsFromInjects g [] = ([], g) :=
  ⟨extractEvents_pairs g L,
   by rw [extractEvents_names]; exact firstSeenFrom_nodup _ _,
   rfl⟩

/-- Claim C10 (confirmed): the chat route and the sessions route each own an
independent module-level session map; every handler of one route leaves the
other route's map unchanged, and each route's reads are insensitive to the
other route's map. -/
theorem claim_C10 (g : Gen) (envKey : Option String) (st : GlobalState) (creq : ChatRequest)
    (reply : UpstreamReply) (preq : PutRequest) (q1 q2 q3 : Option String)
    (sreq : ApiPostRequest) (c1 c2 : JsMap Session) (a1 a2 : JsMap ApiSessionData) :
    (chatPOSTg g envKey st creq reply).2.1.apiSessions = st.apiSessions ∧
    (chatPUTg g st preq).2.1.apiSessions = st.apiSessions ∧
    (chatGETg st q1).2 = st ∧
    (sessionsGETg g st q2).2.1 = st ∧
    (sessionsPOSTg g st sreq).2.1.chatSessions = st.chatSessions ∧
    (sessionsDELETEg st q3).2.chatSessions = st.chatSessions ∧
    (sessionsGETg g { chatSessions := c1, apiSessions := st.apiSessions } q2).1
      = (sessionsGETg g { chatSessions := c2, apiSessions := st.apiSessions } q2).1 ∧
    (chatGETg { chatSessions := st.chatSessions, apiSessions := a1 } q1).1
      = (chatGETg { chatSessions := st.chatSessions, apiSessions := a2 } q1).1 :=
  ⟨rfl, rfl, rfl, rfl, rfl, rfl, rfl, rfl⟩

/-- Claim C1, counterexample: with distinct clock readings, merging one
incoming inject numbered 3 into the five-inject document `cDoc` does NOT
leave injects 1,2,4,5 byte-identical to their prior state — every inject is
re-stamped with a fresh last-modified time by the final version bump. -/
theorem claim_C1_cex :
    ¬ ((mergeMelUpdates gen0 (some cDoc) [cUpd]).1.injects[0]? = some (cInj 1 "id-1" "m1") ∧
       (mergeMelUpdates gen0 (some cDoc) [cUpd]).1.injects[1]? = some (cInj 2 "id-2" "m2") ∧
       (mergeMelUpdates gen0 (some cDoc) [cUpd]).1.injects[3]? = some (cInj 4 "id-4" "m4") ∧
       (mergeMelUpdates gen0 (some cDoc) [cUpd]).1.injects[4]? = some (cInj 5 "id-5" "m5")) := by
  decide

/-- Claim C1 (corrected): merging a single incoming inject with number 3
into a document whose five injects are numbered 1..5 (all carrying
identifiers, the incoming one carrying none) leaves injects 1,2,4,5 exactly
as before except for the re-stamped last-modified time, and replaces inject 3
by the incoming inject's fields with the identifier of the existing inject 3
and the document's identifier forced back in, plus the same fresh
last-modified stamp. -/
theorem claim_C1 (g : Gen) (mid ts0 : String) (v tot : Nat) (evs : List Event)
    (a1 a2 a3 a4 a5 : String) (c1 c2 c3 c4 c5 uc : Inject) :
    (mergeMelUpdates g
      (some { melId := mid, version := v, timestamp := ts0,
              injects := [{ c1 with id := some a1, Number := some (.num 1) },
                          { c2 with id := some a2, Number := some (.num 2) },
                          { c3 with id := some a3, Number := some (.num 3) },
                          { c4 with id := some a4, Number := some (.num 4) },
                          { c5 with id := some a5, Number := some (.num 5) }],
              totalInjects := tot, events := evs })
      [{ uc with id := none, Number := some (.num 3) }]).1.injects
      = [restampInject (g.clock (g.t + 1)) { c1 with id := some a1, Number := some (.num 1) },
         restampInject (g.clock (g.t + 1)) { c2 with id := some a2, Number := some (.num 2) },
         restampInject (g.clock (g.t + 1))
           { uc with id := some a3, melId := some mid, Number := some (.num 3) },
         restampInject (g.clock (g.t + 1)) { c4 with id := some a4, Number := some (.num 4) },
         restampInject (g.clock (g.t + 1)) { c5 with id := some a5, Number := some (.num 5) }] :=
  rfl

/-- Claim C3 (confirmed): under merge mode, an incoming batch of equal or
greater length is handed wholesale to the replace path — the result's injects
are exactly the re-stamped incoming batch, discarding existing injects not in
it — while a strictly shorter batch goes through field-level reconciliation,
which keeps every existing inject's identifier at its position. -/
theorem claim_C3 (g : Gen) (mel : MelData) (u : List Inject) :
    (mel.injects.length ≤ u.length →
      mergeMelUpdates g (some mel) u = updateMelVersion g mel u ∧
      (mergeMelUpdates g (some mel) u).1.injects = u.map (restampInject (g.clock g.t))) ∧
    (u.length < mel.injects.length →
      ∀ k : Nat, k < mel.injects.length →
        ((mergeMelUpdates g (some mel) u).1.injects[k]?).map Inject.id
          = (mel.injects[k]?).map Inject.id) := by
  constructor
  · intro h
    have hn : ¬ (u.length < mel.injects.length) := not_lt.2 h
    refine ⟨mergeMelUpdates_replace g mel u hn, ?_⟩
    rw [mergeMelUpdates_replace g mel u hn]
    rfl
  · intro h k hk
    exact mergeMelUpdates_keepsIds g mel u h k hk

/-- Witness for C3: the concrete five-inject document with a same-length
batch is replaced wholesale, and with a single-inject batch every existing
identifier survives at its position. -/
theorem claim_C3_witness :
    (cDoc.injects.length ≤ [cUpd, cUpd, cUpd, cUpd, cUpd].length ∧
      mergeMelUpdates gen0 (some cDoc) [cUpd, cUpd, cUpd, cUpd, cUpd]
        = updateMelVersion gen0 cDoc [cUpd, cUpd, cUpd, cUpd, cUpd]) ∧
    ([cUpd].length < cDoc.injects.length ∧
      ((mergeMelUpdates gen0 (some cDoc) [cUpd]).1.injects[0]?).map Inject.id
        = (cDoc.injects[0]?).map Inject.id) :=
  ⟨⟨by decide, ((claim_C3 gen0 cDoc [cUpd, cUpd, cUpd, cUpd, cUpd]).1 (by decide)).1⟩,
   ⟨by decide, (claim_C3 gen0 cDoc [cUpd]).2 (by decide) 0 (by decide)⟩⟩

/-- Claim C4, counterexample: the replace path does not stamp the owning
document identifier — replacing the injects of document `A` with an inject
owned by `B` leaves that inject pointing at `B`. -/
theorem claim_C4_cex :
    ¬ (∀ x ∈ (updateMelVersion gen0 c4Doc [c4Inj]).1.injects,
        x.melId = some (updateMelVersion gen0 c4Doc [c4Inj]).1.melId) := by
  decide

/-- Claim C4 (corrected): identifiers are never changed once assigned — the
replace path passes them through, the builder preserves nonempty input
identifiers, and the merge path keeps each existing inject's identifier in
place — the builder stamps every inject's owning-document identifier to the
new document's identifier, and on the merge path every resulting inject
either is an untouched original (up to the re-stamped last-modified time) or
carries the document's identifier, i.e. matched and appended entries are
stamped; but the replace path passes the owning-document identifier through
unchanged instead of stamping it, so replace/user-edit output can carry
owning identifiers pointing elsewhere. -/
theorem claim_C4 (g : Gen) (mel : MelData) (u L : List Inject) (mid : Option String) :
    ((updateMelVersion g mel u).1.injects.map Inject.id = u.map Inject.id ∧
     (updateMelVersion g mel u).1.injects.map Inject.melId = u.map Inject.melId) ∧
    (∀ x ∈ (createMelVersion g L mid).1.injects,
       x.melId = some (createMelVersion g L mid).1.melId) ∧
    (∀ (k : Nat) (j : Inject) (v : String), L[k]? = some j → j.id = some v → v ≠ "" →
       ((createMelVersion g L mid).1.injects[k]?).map Inject.id = some (some v)) ∧
    (u.length < mel.injects.length →
       ∀ k : Nat, k < mel.injects.length →
         ((mergeMelUpdates g (some mel) u).1.injects[k]?).map Inject.id
           = (mel.injects[k]?).map Inject.id) ∧
    (u.length < mel.injects.length →
       ∀ x ∈ (mergeMelUpdates g (some mel) u).1.injects,
         x.melId = some mel.melId ∨ ∃ y ∈ mel.injects, ∃ ts : String, x = restampInject ts y) := by
  refine ⟨⟨?_, ?_⟩, ?_, ?_, ?_, ?_⟩
  · show (u.map (restampInject _)).map Inject.id = u.map Inject.id
    rw [List.map_map, restamp_id_comp]
  · show (u.map (restampInject _)).map Inject.melId = u.map Inject.melId
    rw [List.map_map, restamp_melId_comp]
  · intro x hx
    exact assignIds_melId L _ _ _ _ x hx
  · intro k j v hk hid hv
    exact assignIds_id L _ _ _ _ k j v hk hid hv
  · intro h k hk
    exact mergeMelUpdates_keepsIds g mel u h k hk
  · intro h x hx
    rw [mergeMelUpdates_shortBatch g mel u h] at hx
    have hx2 : x ∈ (mergeLoop g mel.melId mel.injects u).1.map
        (restampInject (((mergeLoop g mel.melId mel.injects u).2).clock
          ((mergeLoop g mel.melId mel.injects u).2).t)) := hx
    rcases List.mem_map.1 hx2 with ⟨y, hy, rfl⟩
    rcases mergeLoop_mem u g mel.melId mel.injects y hy with h1 | h2
    · exact Or.inr ⟨y, h1, _, rfl⟩
    · exact Or.inl h2

/-- Witness for C4: on the concrete fixtures, the builder keeps the nonempty
input identifier, the built inject carries the new document's identifier, a
merge into the five-inject document keeps the identifier at position 1, and
the concrete matched entry of that merge either carries the document's
identifier or is an untouched original (it carries the document's
identifier). -/
theorem claim_C4_witness :
    (((createMelVersion gen0 [cInj 1 "id-1" "m1"] (some "doc-A")).1.injects[0]?).map Inject.id
        = some (some "id-1")) ∧
    (cInj 1 "id-1" "m1" ∈ cDoc.injects) ∧
    (((mergeMelUpdates gen0 (some cDoc) [cUpd]).1.injects[1]?).map Inject.id
        = (cDoc.injects[1]?).map Inject.id) ∧
    (cMerged3 ∈ (mergeMelUpdates gen0 (some cDoc) [cUpd]).1.injects) ∧
    (cMerged3.melId = some cDoc.melId ∨
      ∃ y ∈ cDoc.injects, ∃ ts : String, cMerged3 = restampInject ts y) :=
  ⟨(claim_C4 gen0 cDoc [cUpd] [cInj 1 "id-1" "m1"] (some "doc-A")).2.2.1 0
     (cInj 1 "id-1" "m1") "id-1" (by decide) (by decide) (by decide),
   by decide,
   (claim_C4 gen0 cDoc [cUpd] [cInj 1 "id-1" "m1"] (some "doc-A")).2.2.2.1 (by decide) 1
     (by decide),
   by decide,
   (claim_C4 gen0 cDoc [cUpd] [cInj 1 "id-1" "m1"] (some "doc-A")).2.2.2.2 (by decide)
     cMerged3 (by decide)⟩

/-- Claim C8, counterexample: feeding a freshly built document's injects back
through the replace path changes more than version and timestamp fields — the
recomputed events carry fresh synthetic identifiers, so the events list
differs even though its names (content) agree. -/
theorem claim_C8_cex :
    (updateMelVersion (createMelVersion gen0 [c8Inj] none).2
        (createMelVersion gen0 [c8Inj] none).1
        (createMelVersion gen0 [c8Inj] none).1.injects).1.events
      ≠ (createMelVersion gen0 [c8Inj] none).1.events ∧
    (updateMelVersion (createMelVersion gen0 [c8Inj] none).2
        (createMelVersion gen0 [c8Inj] none).1
        (createMelVersion gen0 [c8Inj] none).1.injects).1.events.map Event.name
      = (createMelVersion gen0 [c8Inj] none).1.events.map Event.name := by
  constructor
  · decide
  · decide

/-- Claim C8 (corrected): the round-trip is idempotent on content — document
identifier, inject list (up to the re-stamped last-modified time), count, and
event names and counts are all preserved, with the version incremented by
one — but besides the document version/timestamp and the injects'
last-modified stamps, the synthetic event identifiers are also refreshed. -/
theorem claim_C8 (g : Gen) (X : List Inject) :
    (updateMelVersion (createMelVersion g X none).2 (createMelVersion g X none).1
        (createMelVersion g X none).1.injects).1.melId
      = (createMelVersion g X none).1.melId ∧
    (updateMelVersion (createMelVersion g X none).2 (createMelVersion g X none).1
        (createMelVersion g X none).1.injects).1.version
      = (createMelVersion g X none).1.version + 1 ∧
    (updateMelVersion (createMelVersion g X none).2 (createMelVersion g X none).1
        (createMelVersion g X none).1.injects).1.totalInjects
      = (createMelVersion g X none).1.totalInjects ∧
    (updateMelVersion (createMelVersion g X none).2 (createMelVersion g X none).1
        (createMelVersion g X none).1.injects).1.injects
      = (createMelVersion g X none).1.injects.map
          (restampInject (((createMelVersion g X none).2).clock
            ((createMelVersion g X none).2).t)) ∧
    (updateMelVersion (createMelVersion g X none).2 (createMelVersion g X none).1
        (createMelVersion g X none).1.injects).1.events.map Event.name
      = (createMelVersion g X none).1.events.map Event.name ∧
    (updateMelVersion (createMelVersion g X none).2 (createMelVersion g X none).1
        (createMelVersion g X none).1.injects).1.events.map Event.injectCount
      = (createMelVersion g X none).1.events.map Event.injectCount := by
  refine ⟨rfl, rfl, rfl, rfl, ?_, ?_⟩
  · show (extractEventsFromInjects _ _).1.map Event.name
      = (extractEventsFromInjects _ _).1.map Event.name
    rw [extractEvents_names, extractEvents_names]
    rfl
  · show (extractEventsFromInjects _ _).1.map Event.injectCount
      = (extractEventsFromInjects _ _).1.map Event.injectCount
    rw [extractEvents_counts, extractEvents_counts]
    rfl

/-- Claim C9 (confirmed): a direct document-edit request whose document
identifier does not match the session's current document is rejected with the
404 mismatch error — distinct from the 400 malformed-input error — and
neither the session store nor the uuid/clock supply is touched. -/
theorem claim_C9 (g : Gen) (store : JsMap Session) (req : PutRequest) (sid : String)
    (session : Session) (mel : MelData) (l : List Inject)
    (hsid : req.sessionId = some sid) (hne : sid ≠ "")
    (hget : jsMapGet store sid = some session)
    (hact : req.action = some "updateInjects")
    (hinj : req.injects = some l)
    (hmel : session.currentMel = some mel)
    (hmis : req.melId ≠ some mel.melId) :
    chatPUT g store req = (PutOutcome.failure 404 "MEL not found or ID mismatch", store, g) ∧
    PutOutcome.failure 404 "MEL not found or ID mismatch"
      ≠ PutOutcome.failure 400 "Invalid action or missing data" := by
  constructor
  · simp [chatPUT, hsid, isFalsyStr, hne, hget, hact, hinj, hmel, hmis]
  · decide

/-- Witness for C9: the concrete mismatched request against the concrete
store is rejected with the 404 mismatch error and leaves the store alone. -/
theorem claim_C9_witness :
    chatPUT gen0 wStore wReq
      = (PutOutcome.failure 404 "MEL not found or ID mismatch", wStore, gen0) :=
  (claim_C9 gen0 wStore wReq "s1" wSession cDoc [] (by decide) (by decide) (by decide)
    (by decide) (by decide) (by decide) (by decide)).1

end MelSpec
